import Mathlib

/-!
Verification development for the Azure disk-change audit script
(Get-ChangedDisksSince).  The pure pipeline logic of the script is embedded
shallowly: resource-id parsing, best-effort regex field extraction,
managed-disk reference extraction, activity-log record classification,
the Resource Graph (ARG) pagination loop, the enrichment and new-disk
backfill steps, and the per-VM attach/detach diff engine.

Modelling conventions:
- PowerShell null is modelled with Option; absent object properties
  (checked in the script with PSObject.Properties.Match) are modelled as
  Option fields that are none.
- Event timestamps are modelled as natural numbers (only their ordering
  and equality matter to the script).
- PowerShell string comparison with -eq is case-insensitive; it is
  modelled by comparing toLower images.  Hashtable keys built with
  ToLower model the explicit lowering done by the script.
- The regex scans of Try-Parse-Field and Extract-DiskIdsFromVmJson are
  embedded as character-list matchers implementing exactly the two
  regular expressions of the script, including greedy backtracking of
  the inner bracket-free run.
-/

namespace DiskAudit

/-- Left brace character, written via its code point so that braces never
appear literally in the file. -/
def lbrace : Char := Char.ofNat 123

/-- Right brace character, written via its code point. -/
def rbrace : Char := Char.ofNat 125

/-- Whitespace test used for the regex class of whitespace and for
IsNullOrWhiteSpace.  The .NET semantics of the script cover Unicode
whitespace; the payloads at hand only contain ASCII whitespace, which
Char.isWhitespace models. -/
def isWs (c : Char) : Bool := c.isWhitespace

/-- Model of String.IsNullOrWhiteSpace on a possibly-null string. -/
def isNullOrWhiteSpace : Option String → Bool
  | none => true
  | some s => s.data.all isWs

/-- Lower-casing of a string, character by character (structurally
recursive equivalent of String.toLower, kernel-reducible). -/
def lowerStr (s : String) : String := String.mk (s.data.map Char.toLower)

/-- Suffix test on strings (structurally recursive equivalent of
String.endsWith). -/
def strEndsWith (s suffix : String) : Bool := List.isSuffixOf suffix.data s.data

/-- Split a character list at every occurrence of the separator,
matching the semantics of both String.splitOn and the PowerShell
-split operator on a literal separator: the empty input yields one
empty segment. -/
def splitChars (sep : Char) : List Char → List (List Char)
  | [] => [[]]
  | c :: rest =>
    let r := splitChars sep rest
    if c = sep then [] :: r
    else
      match r with
      | [] => [[c]]
      | h :: t => (c :: h) :: t

/-- PowerShell -eq on two non-null strings: case-insensitive comparison
(InvariantCultureIgnoreCase), modelled via lower-casing. -/
def psEq (a b : String) : Bool := lowerStr a == lowerStr b

/-- PowerShell -eq where the left operand may be null: null compares
unequal to every string (including the empty string). -/
def psEqO : Option String → String → Bool
  | none, _ => false
  | some a, b => psEq a b

/-- Result of Parse-ResourceId: the five fields of the ordered hashtable,
each null when the path has too few segments. -/
structure ResourceIdParts where
  subscriptionId : Option String
  resourceGroup : Option String
  provider : Option String
  type : Option String
  name : Option String
deriving DecidableEq

/-- The all-null identifier returned for malformed or empty input. -/
def allNullParts : ResourceIdParts := ⟨none, none, none, none, none⟩

/-- Embedding of Parse-ResourceId: split the resource id on slashes and
populate fields only when enough segments exist (indices 2, 4, 6/7, 7, 8).
Out-of-range PowerShell indexing yields null, which interpolates to the
empty string; getD with a default of the empty string models this. -/
def parseResourceId (rid : Option String) : ResourceIdParts :=
  if isNullOrWhiteSpace rid then allNullParts
  else
    let parts := (splitChars '/' (rid.getD "").data).map String.mk
    { subscriptionId := if parts.length ≥ 3 then some (parts.getD 2 "") else none
      resourceGroup := if parts.length ≥ 5 then some (parts.getD 4 "") else none
      provider := if parts.length ≥ 7 then some (parts.getD 6 "" ++ "/" ++ parts.getD 7 "") else none
      type := if parts.length ≥ 9 then some (parts.getD 7 "") else none
      name := if parts.length ≥ 9 then some (parts.getD 8 "") else none }

/-- Value extracted by Try-Parse-Field: either the integer branch of the
alternation or the raw quoted-string branch with surrounding quotes
stripped (escape sequences are kept verbatim, as in the script). -/
inductive JsonVal where
  | int (n : Int) : JsonVal
  | str (s : String) : JsonVal
deriving DecidableEq

/-- Match a literal character sequence at the head of the input,
returning the remainder on success. -/
def matchLit : List Char → List Char → Option (List Char)
  | [], s => some s
  | _ :: _, [] => none
  | c :: cs, x :: xs => if x = c then matchLit cs xs else none

/-- Drop a maximal run of whitespace (the regex piece backslash-s star). -/
def dropWs : List Char → List Char
  | [] => []
  | c :: rest => if isWs c then dropWs rest else c :: rest

/-- Convert a digit run to a number (the int cast of the script; the
Int32 overflow behaviour of the script on absurdly long runs is out of the
modelled domain). -/
def digitsToNat (l : List Char) : Nat :=
  l.foldl (fun acc c => acc * 10 + (c.toNat - 48)) 0

/-- Match the quoted-string body alternation of Try-Parse-Field: a
sequence of non-quote non-backslash characters or backslash escapes,
terminated by a closing quote.  Returns the raw body characters
(escapes unresolved) and the remainder. -/
def matchEscBody : List Char → Option (List Char × List Char)
  | [] => none
  | '"' :: rest => some ([], rest)
  | '\\' :: c :: rest =>
    match matchEscBody rest with
    | some (body, r) => some ('\\' :: c :: body, r)
    | none => none
  | '\\' :: [] => none
  | c :: rest =>
    match matchEscBody rest with
    | some (body, r) => some (c :: body, r)
    | none => none

/-- Attempt the Try-Parse-Field pattern at the current position: the
quoted field name, optional whitespace, a colon, optional whitespace,
then either a digit run (returned as an integer) or a quoted string
(returned with outer quotes stripped). -/
def matchFieldAt (field : List Char) (s : List Char) : Option JsonVal :=
  match matchLit ('"' :: (field ++ ['"'])) s with
  | none => none
  | some s1 =>
    match dropWs s1 with
    | ':' :: s2 =>
      match dropWs s2 with
      | [] => none
      | c :: s3 =>
        if c.isDigit then
          some (JsonVal.int (Int.ofNat (digitsToNat ((c :: s3).takeWhile Char.isDigit))))
        else if c = '"' then
          match matchEscBody s3 with
          | some (body, _) => some (JsonVal.str (String.mk body))
          | none => none
        else none
    | _ => none

/-- Scan left to right for the first position where the Try-Parse-Field
pattern matches, like a single .NET Regex.Match. -/
def tryParseFieldAux (field : List Char) : List Char → Option JsonVal
  | [] => none
  | c :: rest =>
    match matchFieldAt field (c :: rest) with
    | some v => some v
    | none => tryParseFieldAux field rest

/-- Embedding of Try-Parse-Field: null on a null or whitespace payload,
otherwise the first pattern match for the given field name. -/
def tryParseField (json : Option String) (field : String) : Option JsonVal :=
  if isNullOrWhiteSpace json then none
  else tryParseFieldAux field.data (json.getD "").data

/-- Literal characters of the quoted id key inside the managed-disk
pattern. -/
def litId : List Char := ['"', 'i', 'd', '"']

/-- Literal characters of the quoted managedDisk key. -/
def litMD : List Char := '"' :: ("managedDisk".data ++ ['"'])

/-- Take a maximal run of non-quote characters, returning the run and
the remainder (used for the capture group of non-quote characters). -/
def takeNonQuote : List Char → List Char × List Char
  | [] => ([], [])
  | c :: rest =>
    if c = '"' then ([], c :: rest)
    else
      let p := takeNonQuote rest
      (c :: p.1, p.2)

/-- Match the tail of the managed-disk pattern: the quoted id key,
optional whitespace, a colon, optional whitespace, then a quoted
non-empty capture of non-quote characters.  Returns the captured id and
the remainder after its closing quote. -/
def matchIdTail (s : List Char) : Option (String × List Char) :=
  match matchLit litId s with
  | none => none
  | some s1 =>
    match dropWs s1 with
    | ':' :: s2 =>
      match dropWs s2 with
      | '"' :: s3 =>
        let p := takeNonQuote s3
        if p.1.isEmpty then none
        else
          match p.2 with
          | '"' :: s4 => some (String.mk p.1, s4)
          | _ => none
      | _ => none
    | _ => none

/-- Greedy match of the bracket-free run followed by the id tail: the
regex consumes as many non-right-brace characters as possible and
backtracks, so the deepest position is tried first and the id tail at
the current position is the fallback. -/
def matchInner : List Char → Option (String × List Char)
  | [] => matchIdTail []
  | c :: rest =>
    if c = rbrace then matchIdTail (c :: rest)
    else
      match matchInner rest with
      | some r => some r
      | none => matchIdTail (c :: rest)

/-- Attempt the full managed-disk pattern at the current position:
the quoted managedDisk key, optional whitespace, a colon, optional
whitespace, an opening brace, then the greedy inner part. -/
def matchFull (s : List Char) : Option (String × List Char) :=
  match matchLit litMD s with
  | none => none
  | some s1 =>
    match dropWs s1 with
    | ':' :: s2 =>
      match dropWs s2 with
      | c :: s3 => if c = lbrace then matchInner s3 else none
      | [] => none
    | _ => none

/-- Collect all non-overlapping matches left to right, continuing after
each match, like .NET Regex.Matches.  Fuel bounds the recursion; the
input length is always sufficient fuel because a successful match
consumes at least one character. -/
def scanCapturesFuel : Nat → List Char → List String
  | 0, _ => []
  | _, [] => []
  | fuel + 1, c :: rest =>
    match matchFull (c :: rest) with
    | some (cap, rest2) => cap :: scanCapturesFuel fuel rest2
    | none => scanCapturesFuel fuel rest

/-- All captures of the managed-disk pattern over a payload. -/
def scanCaptures (s : List Char) : List String :=
  scanCapturesFuel s.length s

/-- One HashSet.Add step: append the element only when absent. -/
def addIfAbsent (acc : List String) (x : String) : List String :=
  if x ∈ acc then acc else acc ++ [x]

/-- Model of building a .NET HashSet of strings by repeated Add,
preserving first-insertion order (the default ordinal comparer matches
plain string equality). -/
def hashSetOf (l : List String) : List String := l.foldl addIfAbsent []

/-- Embedding of Extract-DiskIdsFromVmJson: the set of all ids captured
by the managed-disk pattern, empty for a null or whitespace payload. -/
def extractDiskIdsFromVmJson (json : Option String) : List String :=
  if isNullOrWhiteSpace json then []
  else hashSetOf (scanCaptures (json.getD "").data)

/-- One activity-log operation record with the fields the script reads,
already past the Where-Object filter (success result, time window,
resource type).  propertiesJson models the ConvertTo-Json rendering of
the Properties object; statusMessage is the fallback payload. -/
structure ActivityOp where
  resourceId : Option String
  eventTimestamp : Nat
  operationNameValue : String
  caller : Option String
  correlationId : Option String
  resourceGroupName : Option String
  propertiesJson : Option String
  statusMessage : Option String
deriving DecidableEq

/-- Embedding of Get-ActivityJson: the rendered Properties when present,
otherwise the StatusMessage, otherwise null. -/
def getActivityJson (op : ActivityOp) : Option String :=
  match op.propertiesJson with
  | some j => some j
  | none => op.statusMessage

/-- Classification of the change type from the operation name suffix, as
in the script: a delete suffix wins, then write, then create, and the
default is Updated.  PowerShell -match is case-insensitive, hence the
lowering. -/
def classifyChangeType (opName : String) : String :=
  let lower := lowerStr opName
  if strEndsWith lower "/delete" then "Deleted"
  else if strEndsWith lower "/write" then "Updated"
  else if strEndsWith lower "/create" then "Created"
  else "Updated"

/-- One row returned by the two ARG queries.  The new-disk query projects
name, subscriptionId, resourceGroup, location, timeCreated, diskSizeGB,
sku, osType, managedBy and encryption; the metadata query projects the
subset used for enrichment.  One structure covers both; unused fields
are simply ignored by the consumer. -/
structure DiskInventoryRow where
  name : String
  subscriptionId : String
  resourceGroup : String
  location : String
  timeCreated : Nat
  diskSizeGB : Int
  sku : String
  osType : String
  managedBy : String
  encryption : String
deriving DecidableEq

/-- One row of the disk-changes list.  The three trailing fields model
properties that exist only after enrichment or ARG backfill; none means
the property is absent from the PSCustomObject. -/
structure DiskChangeRecord where
  changeType : String
  diskName : Option String
  subscriptionId : Option String
  resourceGroup : Option String
  location : Option String
  eventTime : Nat
  operation : Option String
  caller : Option String
  requestedSizeGB : Option JsonVal
  requestedSku : Option JsonVal
  requestedEnc : Option JsonVal
  source : String
  resourceId : Option String
  correlationId : Option String
  currentSizeGB : Option Int := none
  currentSku : Option String := none
  managedBy : Option String := none
deriving DecidableEq

/-- Construction of one ActivityLog-sourced DiskChangeRecord, following
the record literal of the script: the disk name, subscription and
resource group come from Parse-ResourceId, the Location field is set to
the ResourceGroupName of the event, and the requested fields come from
Try-Parse-Field over the event payload. -/
def mkActivityDiskRecord (op : ActivityOp) : DiskChangeRecord :=
  let ridInfo := parseResourceId op.resourceId
  let json := getActivityJson op
  { changeType := classifyChangeType op.operationNameValue
    diskName := ridInfo.name
    subscriptionId := ridInfo.subscriptionId
    resourceGroup := ridInfo.resourceGroup
    location := op.resourceGroupName
    eventTime := op.eventTimestamp
    operation := some op.operationNameValue
    caller := op.caller
    requestedSizeGB := tryParseField json "diskSizeGB"
    requestedSku := tryParseField json "name"
    requestedEnc := tryParseField json "encryptionType"
    source := "ActivityLog"
    resourceId := op.resourceId
    correlationId := op.correlationId }

/-- Lower-cased pipe-joined key of an inventory row, as built for the
enrichment hashtable. -/
def metaKey (m : DiskInventoryRow) : String :=
  lowerStr m.subscriptionId ++ "|" ++ lowerStr m.resourceGroup ++ "|" ++ lowerStr m.name

/-- Lower-cased pipe-joined key of a change record, as built inside the
enrichment loop.  The script calls ToLower directly on the fields; the
records reaching enrichment have non-null identity fields, modelled by
defaulting to the empty string. -/
def rowKey (r : DiskChangeRecord) : String :=
  lowerStr (r.subscriptionId.getD "") ++ "|" ++ lowerStr (r.resourceGroup.getD "")
    ++ "|" ++ lowerStr (r.diskName.getD "")

/-- Hashtable lookup over the metadata rows: assignment in the build loop
overwrites, so the last row with a given key wins. -/
def lookupMeta (meta : List DiskInventoryRow) (key : String) : Option DiskInventoryRow :=
  (meta.filter (fun m => metaKey m == key)).getLast?

/-- Enrichment of one record: on a key hit, Location is overwritten
unconditionally and the three current-metadata properties are added only
when absent (Add-Member guarded by Properties.Match). -/
def enrichRecord (meta : List DiskInventoryRow) (r : DiskChangeRecord) : DiskChangeRecord :=
  match lookupMeta meta (rowKey r) with
  | none => r
  | some m =>
    { r with
      location := some m.location
      currentSizeGB := match r.currentSizeGB with | some v => some v | none => some m.diskSizeGB
      currentSku := match r.currentSku with | some v => some v | none => some m.sku
      managedBy := match r.managedBy with | some v => some v | none => some m.managedBy }

/-- The ARG-sourced Created record added by the backfill loop. -/
def mkArgRecord (d : DiskInventoryRow) : DiskChangeRecord :=
  { changeType := "Created"
    diskName := some d.name
    subscriptionId := some d.subscriptionId
    resourceGroup := some d.resourceGroup
    location := some d.location
    eventTime := d.timeCreated
    operation := some "ARG: timeCreated"
    caller := none
    requestedSizeGB := some (JsonVal.int d.diskSizeGB)
    requestedSku := some (JsonVal.str d.sku)
    requestedEnc := some (JsonVal.str d.encryption)
    source := "ARG"
    resourceId := none
    correlationId := none
    managedBy := some d.managedBy }

/-- The existence test of the backfill loop: a record blocks the ARG row
when its change type is Created and subscription, resource group and
disk name agree under PowerShell -eq (case-insensitive; a null field
never matches). -/
def backfillMatches (r : DiskChangeRecord) (d : DiskInventoryRow) : Bool :=
  psEq r.changeType "Created" && psEqO r.subscriptionId d.subscriptionId
    && psEqO r.resourceGroup d.resourceGroup && psEqO r.diskName d.name

/-- One iteration of the backfill loop: append the ARG record only when
no record in the accumulated list matches. -/
def integrateArgDisk (changes : List DiskChangeRecord) (d : DiskInventoryRow) :
    List DiskChangeRecord :=
  if changes.any (fun r => backfillMatches r d) then changes
  else changes ++ [mkArgRecord d]

/-- The whole backfill loop over the new-disk rows; later iterations see
records appended by earlier ones, as with the mutable list of the
script. -/
def integrateArgDisks (changes : List DiskChangeRecord) (newDisks : List DiskInventoryRow) :
    List DiskChangeRecord :=
  newDisks.foldl integrateArgDisk changes

/-- The disk-change aggregation pipeline in the order of the script:
activity-log records are built first, then, when ARG is available, the
enrichment pass runs over them, and finally the new-disk backfill loop
appends ARG records.  Without ARG the new-disk list is empty in the
script. -/
def runAggregation (ops : List ActivityOp) (argAvailable : Bool)
    (newDisks meta : List DiskInventoryRow) : List DiskChangeRecord :=
  let base := ops.map mkActivityDiskRecord
  let enriched := if argAvailable then base.map (enrichRecord meta) else base
  integrateArgDisks enriched newDisks

/-- The exported disk-change list: the aggregate sorted ascending by
event time (Sort-Object is stable; insertionSort with a
less-or-equal relation is the matching stable sort). -/
def finalDiskChanges (ops : List ActivityOp) (argAvailable : Bool)
    (newDisks meta : List DiskInventoryRow) : List DiskChangeRecord :=
  List.insertionSort (fun a b => a.eventTime ≤ b.eventTime)
    (runAggregation ops argAvailable newDisks meta)

/-- One VM write event as stored in the per-VM map: the timestamp, the
extracted disk-id set (in first-insertion order), the identity fields
from Parse-ResourceId and the correlation id. -/
structure VmEvent where
  time : Nat
  diskIds : List String
  vm : Option String
  subId : Option String
  rg : Option String
  corrId : Option String
deriving DecidableEq

/-- One attach/detach output record. -/
structure AttachChangeRecord where
  changeType : String
  vmName : Option String
  subscriptionId : Option String
  resourceGroup : Option String
  diskId : String
  eventTime : Nat
  source : String
  correlationId : Option String
deriving DecidableEq

/-- The Attached record for a disk id new in the current snapshot: all
attribution comes from the current event. -/
def mkAttached (curr : VmEvent) (id : String) : AttachChangeRecord :=
  ⟨"Attached", curr.vm, curr.subId, curr.rg, id, curr.time, "ActivityLog(VM write)", curr.corrId⟩

/-- The Detached record for a disk id missing from the current snapshot:
VM, subscription and resource group come from the previous event while
the timestamp and correlation id come from the current one, exactly as
in the script. -/
def mkDetached (prev curr : VmEvent) (id : String) : AttachChangeRecord :=
  ⟨"Detached", prev.vm, prev.subId, prev.rg, id, curr.time, "ActivityLog(VM write)", curr.corrId⟩

/-- Diff of one adjacent pair of snapshots: the script rebuilds both
hash sets, emits Attached for ids in current minus previous, then
Detached for ids in previous minus current. -/
def diffPair (prev curr : VmEvent) : List AttachChangeRecord :=
  let prevIds := hashSetOf prev.diskIds
  let currIds := hashSetOf curr.diskIds
  (currIds.filter (fun id => !(prevIds.contains id))).map (mkAttached curr)
    ++ (prevIds.filter (fun id => !(currIds.contains id))).map (mkDetached prev curr)

/-- Diff of a chronologically sorted snapshot sequence: each adjacent
pair contributes in order; fewer than two snapshots contribute
nothing. -/
def diffSorted : List VmEvent → List AttachChangeRecord
  | a :: b :: rest => diffPair a b ++ diffSorted (b :: rest)
  | _ => []

/-- The diff engine for one VM key: sort its events ascending by time
(Sort-Object Time, stable) and diff adjacent pairs. -/
def diffVm (events : List VmEvent) : List AttachChangeRecord :=
  diffSorted (List.insertionSort (fun a b => a.time ≤ b.time) events)

/-- One response of the paginated ARG query: either a page of rows
together with the presence of a continuation token, or an exception
raised by the call. -/
inductive ArgPage where
  | ok : List DiskInventoryRow → Bool → ArgPage
  | failure : ArgPage
deriving DecidableEq

/-- The pagination loop of Invoke-ArgQuery with its accumulated rows:
a successful page is appended and the loop continues while a token is
present; an exception is caught and whatever has accumulated so far is
returned. -/
def runArgQuery : List DiskInventoryRow → List ArgPage → List DiskInventoryRow
  | acc, [] => acc
  | acc, ArgPage.failure :: _ => acc
  | acc, ArgPage.ok data tok :: rest =>
    if tok then runArgQuery (acc ++ data) rest else acc ++ data

/-- Embedding of Invoke-ArgQuery over a scripted sequence of responses:
the result is always a plain row list; no exception escapes. -/
def invokeArgQuery (pages : List ArgPage) : List DiskInventoryRow :=
  runArgQuery [] pages

/-- Predicate following the wording of the spec for the backfill dedup test:
a case-sensitive exact match on (Created, subscription, resource group,
disk name).  This is the spec-side definition used to compare against
the code-side backfillMatches, which is case-insensitive. -/
def specMatchCaseSensitive (r : DiskChangeRecord) (d : DiskInventoryRow) : Bool :=
  r.changeType == "Created" && r.subscriptionId == some d.subscriptionId
    && r.resourceGroup == some d.resourceGroup && r.diskName == some d.name

/-- The characters between the opening brace and the closing brace of a
canonically rendered managed-disk object: the quoted id key, a colon,
and the quoted id. -/
def innerChars (id : String) : List Char :=
  litId ++ ':' :: '"' :: id.data ++ ['"']

/-- One canonically rendered managed-disk reference: the quoted key, a
colon, and a braced object holding the quoted id. -/
def fragChars (id : String) : List Char :=
  litMD ++ ':' :: lbrace :: innerChars id ++ [rbrace]

/-- Characters of a VM payload referencing the given disk ids under
successive managedDisk objects. -/
def renderChars : List String → List Char
  | [] => []
  | id :: ids => fragChars id ++ renderChars ids

/-- A VM payload text referencing exactly the given disk ids (with
multiplicity) under managedDisk objects. -/
def renderVmJson (ids : List String) : String := String.mk (renderChars ids)

/-- A disk id is well formed for rendering when it is non-empty and
contains neither a double quote nor a right brace (true of every Azure
resource id). -/
def goodId (id : String) : Bool :=
  !id.data.isEmpty && id.data.all (fun c => c != '"' && c != rbrace)

/-- Inventory row fixture for the claim about pipeline step order: a
recently created disk also present in the metadata query. -/
def c1Row : DiskInventoryRow :=
  ⟨"disk1", "sub1", "rg1", "westeurope", 100, 128, "Premium_LRS", "Linux", "", "none"⟩

/-- Metadata row fixture with the same identity key as c1Row but richer
current metadata. -/
def c1Meta : DiskInventoryRow :=
  ⟨"disk1", "sub1", "rg1", "westeurope", 100, 256, "PremiumV2_LRS", "Linux", "vm9", "pmk"⟩

/-- Activity-log fixture: a successful disk create event. -/
def c2Op : ActivityOp :=
  { resourceId := some
      "/subscriptions/sub1/resourceGroups/rg1/providers/Microsoft.Compute/disks/disk1"
    eventTimestamp := 5
    operationNameValue := "Microsoft.Compute/disks/create"
    caller := some "alice@contoso.com"
    correlationId := some "corr-1"
    resourceGroupName := some "rg1"
    propertiesJson := none
    statusMessage := none }

/-- ARG new-disk fixture whose key differs from the record of c2Op only in
the casing of the disk name. -/
def c2ArgRow : DiskInventoryRow :=
  ⟨"DISK1", "sub1", "rg1", "westeurope", 7, 64, "Standard_LRS", "Linux", "", "pmk"⟩

/-- Activity-log fixture for the exact-match dedup scenario. -/
def c2ExactOp : ActivityOp :=
  { resourceId := some
      "/subscriptions/sub1/resourceGroups/rg1/providers/Microsoft.Compute/disks/disk2"
    eventTimestamp := 6
    operationNameValue := "Microsoft.Compute/disks/create"
    caller := some "bob@contoso.com"
    correlationId := some "corr-2"
    resourceGroupName := some "rg1"
    propertiesJson := none
    statusMessage := none }

/-- ARG new-disk fixture with exactly the key of the record of c2ExactOp. -/
def c2ExactRow : DiskInventoryRow :=
  ⟨"disk2", "sub1", "rg1", "westeurope", 8, 32, "Standard_LRS", "Linux", "", "pmk"⟩

/-- Inventory row fixture for the pagination claim. -/
def c3Row : DiskInventoryRow :=
  ⟨"disk3", "sub3", "rg3", "westeurope", 1, 10, "Standard_LRS", "Linux", "", "pmk"⟩

/-- Previous-snapshot fixture for the detach attribution claim. -/
def c4Prev : VmEvent :=
  ⟨1, ["diskA"], some "vmOld", some "subP", some "rgP", some "corrP"⟩

/-- Current-snapshot fixture with the disk removed and different
attribution fields. -/
def c4Curr : VmEvent :=
  ⟨2, [], some "vmNew", some "subC", some "rgC", some "corrC"⟩

/-- Change-record fixture that already carries current metadata before
enrichment. -/
def c5Row : DiskChangeRecord :=
  { changeType := "Updated"
    diskName := some "disk1"
    subscriptionId := some "sub1"
    resourceGroup := some "rg1"
    location := some "rg1"
    eventTime := 3
    operation := some "Microsoft.Compute/disks/write"
    caller := some "alice@contoso.com"
    requestedSizeGB := none
    requestedSku := none
    requestedEnc := none
    source := "ActivityLog"
    resourceId := none
    correlationId := none
    currentSizeGB := some 64
    currentSku := some "Standard_LRS"
    managedBy := some "vm1" }

/-- Metadata fixture whose key matches c5Row, with metadata values all
different from the ones already on c5Row. -/
def c5Meta : DiskInventoryRow :=
  ⟨"disk1", "sub1", "rg1", "northeurope", 2, 512, "UltraSSD_LRS", "Linux", "vm7", "cmk"⟩

/-- Activity-log fixture for the location-initialization claim, with a
resource group name distinct from the region of the disk. -/
def c10Op : ActivityOp :=
  { resourceId := some
      "/subscriptions/sub1/resourceGroups/rg1/providers/Microsoft.Compute/disks/disk1"
    eventTimestamp := 4
    operationNameValue := "Microsoft.Compute/disks/write"
    caller := some "alice@contoso.com"
    correlationId := some "corr-10"
    resourceGroupName := some "rg1"
    propertiesJson := none
    statusMessage := none }

/-- Metadata fixture matching the record key of c10Op, carrying the region. -/
def c10Meta : DiskInventoryRow :=
  ⟨"disk1", "sub1", "rg1", "northeurope", 2, 128, "Premium_LRS", "Linux", "vm1", "pmk"⟩

theorem psEq_refl (a : String) : psEq a a = true := by
  simp [psEq]

theorem psEqO_some_refl (a : String) : psEqO (some a) a = true := psEq_refl a

theorem enrichRecord_changeType (meta : List DiskInventoryRow) (r : DiskChangeRecord) :
    (enrichRecord meta r).changeType = r.changeType := by
  unfold enrichRecord
  cases lookupMeta meta (rowKey r) <;> simp

theorem enrichRecord_subscriptionId (meta : List DiskInventoryRow) (r : DiskChangeRecord) :
    (enrichRecord meta r).subscriptionId = r.subscriptionId := by
  unfold enrichRecord
  cases lookupMeta meta (rowKey r) <;> simp

theorem enrichRecord_resourceGroup (meta : List DiskInventoryRow) (r : DiskChangeRecord) :
    (enrichRecord meta r).resourceGroup = r.resourceGroup := by
  unfold enrichRecord
  cases lookupMeta meta (rowKey r) <;> simp

theorem enrichRecord_diskName (meta : List DiskInventoryRow) (r : DiskChangeRecord) :
    (enrichRecord meta r).diskName = r.diskName := by
  unfold enrichRecord
  cases lookupMeta meta (rowKey r) <;> simp

theorem enrichRecord_source (meta : List DiskInventoryRow) (r : DiskChangeRecord) :
    (enrichRecord meta r).source = r.source := by
  unfold enrichRecord
  cases lookupMeta meta (rowKey r) <;> simp

theorem integrateArgDisks_appends (newDisks : List DiskInventoryRow) :
    ∀ changes : List DiskChangeRecord, ∃ added : List DiskChangeRecord,
      integrateArgDisks changes newDisks = changes ++ added
      ∧ ∀ r ∈ added, r.source = "ARG" ∧ r.currentSizeGB = none ∧ r.currentSku = none := by
  induction newDisks with
  | nil => intro changes; exact ⟨[], by simp [integrateArgDisks], by simp⟩
  | cons d nd ih =>
    intro changes
    show ∃ added, integrateArgDisks (integrateArgDisk changes d) nd = changes ++ added ∧ _
    by_cases h : changes.any (fun r => backfillMatches r d)
    · have hstep : integrateArgDisk changes d = changes := by simp [integrateArgDisk, h]
      rw [hstep]
      exact ih changes
    · have hstep : integrateArgDisk changes d = changes ++ [mkArgRecord d] := by
        simp [integrateArgDisk, h]
      rw [hstep]
      obtain ⟨added, heq, hp⟩ := ih (changes ++ [mkArgRecord d])
      refine ⟨mkArgRecord d :: added, ?_, ?_⟩
      · rw [heq]; simp
      · intro r hr
        rcases List.mem_cons.mp hr with h1 | h1
        · subst h1; exact ⟨rfl, rfl, rfl⟩
        · exact hp r h1

theorem runArgQuery_ok_step (acc g : List DiskInventoryRow) (r : List ArgPage) :
    runArgQuery acc (ArgPage.ok g true :: r) = runArgQuery (acc ++ g) r := by
  simp [runArgQuery]

theorem runArgQuery_ok_then_failure (goods : List (List DiskInventoryRow))
    (rest : List ArgPage) :
    ∀ acc, runArgQuery acc (goods.map (fun d => ArgPage.ok d true) ++ ArgPage.failure :: rest)
      = acc ++ goods.flatten := by
  induction goods with
  | nil => intro acc; simp [runArgQuery]
  | cons g gs ih =>
    intro acc
    rw [List.map_cons, List.cons_append, runArgQuery_ok_step, ih (acc ++ g)]
    simp

/-- Claim C3 (amended): when the paginated ARG query raises at any point,
Invoke-ArgQuery never propagates the exception; it returns exactly the
rows accumulated from the pages fetched before the failure — the empty
set when the very first request fails, but the incomplete page prefix when later
pages fail. -/
theorem c3_arg_query_failure (goods : List (List DiskInventoryRow)) (rest : List ArgPage) :
    invokeArgQuery (goods.map (fun d => ArgPage.ok d true) ++ ArgPage.failure :: rest)
      = goods.flatten
    ∧ invokeArgQuery (ArgPage.failure :: rest) = [] := by
  constructor
  · have h := runArgQuery_ok_then_failure goods rest []
    simpa [invokeArgQuery] using h
  · rfl

/-- Claim C3 counterexample: a query whose first page succeeds with one
row and whose second page raises returns that row — incomplete data, not
the empty result set the claim asserts. -/
theorem c3_counterexample :
    invokeArgQuery [ArgPage.ok [c3Row] true, ArgPage.failure] = [c3Row]
    ∧ invokeArgQuery [ArgPage.ok [c3Row] true, ArgPage.failure] ≠ [] := by
  constructor
  · rfl
  · decide

/-- Claim C5: enrichment never overwrites a CurrentSizeGB, CurrentSku or
ManagedBy value already present on a record (first-writer-wins); on a
key match only the Location field is overwritten unconditionally, the
identity fields, the event time and the source are untouched, and a
record with no key match is returned unchanged. -/
theorem c5_enrichment_first_writer (meta : List DiskInventoryRow) (row : DiskChangeRecord) :
    (row.currentSizeGB.isSome = true →
      (enrichRecord meta row).currentSizeGB = row.currentSizeGB)
    ∧ (row.currentSku.isSome = true →
      (enrichRecord meta row).currentSku = row.currentSku)
    ∧ (row.managedBy.isSome = true →
      (enrichRecord meta row).managedBy = row.managedBy)
    ∧ (∀ m, lookupMeta meta (rowKey row) = some m →
      (enrichRecord meta row).location = some m.location)
    ∧ (lookupMeta meta (rowKey row) = none → enrichRecord meta row = row)
    ∧ (enrichRecord meta row).changeType = row.changeType
    ∧ (enrichRecord meta row).diskName = row.diskName
    ∧ (enrichRecord meta row).subscriptionId = row.subscriptionId
    ∧ (enrichRecord meta row).resourceGroup = row.resourceGroup
    ∧ (enrichRecord meta row).eventTime = row.eventTime
    ∧ (enrichRecord meta row).source = row.source := by
  unfold enrichRecord
  cases hm : lookupMeta meta (rowKey row) with
  | none => simp
  | some m =>
    refine ⟨?_, ?_, ?_, ?_, ?_, by simp, by simp, by simp, by simp, by simp, by simp⟩
    · intro hs
      rcases h : row.currentSizeGB with _ | v
      · rw [h] at hs; cases hs
      · simp [h]
    · intro hs
      rcases h : row.currentSku with _ | v
      · rw [h] at hs; cases hs
      · simp [h]
    · intro hs
      rcases h : row.managedBy with _ | v
      · rw [h] at hs; cases hs
      · simp [h]
    · intro m2 hm2
      rw [Option.some_inj] at hm2
      subst hm2
      simp
    · intro hn; cases hn

/-- Witness for claim C5 at a record that already carries all three
current-metadata values and whose key matches the metadata row. -/
theorem c5_witness :
    (enrichRecord [c5Meta] c5Row).currentSizeGB = c5Row.currentSizeGB
    ∧ (enrichRecord [c5Meta] c5Row).currentSku = c5Row.currentSku
    ∧ (enrichRecord [c5Meta] c5Row).managedBy = c5Row.managedBy
    ∧ (enrichRecord [c5Meta] c5Row).location = some c5Meta.location :=
  ⟨(c5_enrichment_first_writer [c5Meta] c5Row).1 (by decide),
   (c5_enrichment_first_writer [c5Meta] c5Row).2.1 (by decide),
   (c5_enrichment_first_writer [c5Meta] c5Row).2.2.1 (by decide),
   (c5_enrichment_first_writer [c5Meta] c5Row).2.2.2.1 c5Meta (by decide)⟩

/-- Claim C7: a VM with exactly one observed snapshot produces zero
attach/detach records. -/
theorem c7_single_snapshot (events : List VmEvent) (h : events.length = 1) :
    diffVm events = [] := by
  match events, h with
  | [e], _ => simp [diffVm, List.insertionSort, List.orderedInsert, diffSorted]

/-- Witness for claim C7 at a concrete one-snapshot history. -/
theorem c7_witness : diffVm [⟨5, ["x"], none, none, none, none⟩] = [] :=
  c7_single_snapshot [⟨5, ["x"], none, none, none, none⟩] rfl

/-- Claim C9: Parse-ResourceId is a total function of the input string
(the embedding returns a value for every input, no exception path), and
for null or whitespace input as well as for every path with fewer than
three slash-delimited segments it returns the all-null identifier. -/
theorem c9_parser_malformed_null (rid : Option String)
    (h : isNullOrWhiteSpace rid = true
      ∨ (splitChars '/' (rid.getD "").data).length < 3) :
    parseResourceId rid = allNullParts := by
  unfold parseResourceId
  by_cases hw : isNullOrWhiteSpace rid = true
  · simp [hw]
  · rcases h with h | h
    · exact absurd h hw
    · rw [if_neg (by simpa using hw)]
      have hlen : ((splitChars '/' (rid.getD "").data).map String.mk).length < 3 := by
        simpa using h
      have h3 : ¬ ((splitChars '/' (rid.getD "").data).map String.mk).length ≥ 3 := by omega
      have h5 : ¬ ((splitChars '/' (rid.getD "").data).map String.mk).length ≥ 5 := by omega
      have h7 : ¬ ((splitChars '/' (rid.getD "").data).map String.mk).length ≥ 7 := by omega
      have h9 : ¬ ((splitChars '/' (rid.getD "").data).map String.mk).length ≥ 9 := by omega
      simp only [h3, h5, h7, h9, if_false, allNullParts]

/-- Witness for claim C9 at a two-segment input. -/
theorem c9_witness : parseResourceId (some "ab/cd") = allNullParts :=
  c9_parser_malformed_null (some "ab/cd") (Or.inr (by decide))

/-- Claim C10: every ActivityLog-derived record starts with its Location
field equal to the resource group name of the event (not the
region); the field holds a region value only when the enrichment pass
overwrites it from the inventory lookup, and without a lookup hit it
keeps the resource group name. -/
theorem c10_location_from_resource_group (op : ActivityOp) (meta : List DiskInventoryRow) :
    (mkActivityDiskRecord op).location = op.resourceGroupName
    ∧ (∀ m, lookupMeta meta (rowKey (mkActivityDiskRecord op)) = some m →
      (enrichRecord meta (mkActivityDiskRecord op)).location = some m.location)
    ∧ (lookupMeta meta (rowKey (mkActivityDiskRecord op)) = none →
      (enrichRecord meta (mkActivityDiskRecord op)).location = op.resourceGroupName) := by
  refine ⟨rfl, ?_, ?_⟩
  · intro m hm
    unfold enrichRecord
    rw [hm]
  · intro hm
    unfold enrichRecord
    rw [hm]
    rfl

/-- Witness for claim C10: the record of a concrete write event carries
the resource group as Location, and enrichment replaces it with the
region from the matching metadata row. -/
theorem c10_witness :
    (mkActivityDiskRecord c10Op).location = c10Op.resourceGroupName
    ∧ (enrichRecord [c10Meta] (mkActivityDiskRecord c10Op)).location = some c10Meta.location :=
  ⟨(c10_location_from_resource_group c10Op [c10Meta]).1,
   (c10_location_from_resource_group c10Op [c10Meta]).2.1 c10Meta (by decide)⟩

/-- Claim C1 (amended): the aggregator classifies Activity-Log records
first, then runs the enrichment pass over those records, and only
afterwards appends the Graph-sourced Created records of the backfill;
consequently the backfilled records are not present during enrichment
and never receive CurrentSizeGB/CurrentSku enrichment (they carry only
the location and managed-by values of their own inventory row). -/
theorem c1_enrichment_precedes_backfill (ops : List ActivityOp)
    (newDisks meta : List DiskInventoryRow) :
    ∃ added : List DiskChangeRecord,
      runAggregation ops true newDisks meta
        = (ops.map mkActivityDiskRecord).map (enrichRecord meta) ++ added
      ∧ ∀ r ∈ added, r.source = "ARG" ∧ r.currentSizeGB = none ∧ r.currentSku = none := by
  have h := integrateArgDisks_appends newDisks ((ops.map mkActivityDiskRecord).map
    (enrichRecord meta))
  simpa [runAggregation] using h

/-- Witness for claim C1 (amended) at a concrete pipeline run. -/
theorem c1_witness :
    ∃ added : List DiskChangeRecord,
      runAggregation [] true [c1Row] [c1Meta]
        = (([] : List ActivityOp).map mkActivityDiskRecord).map (enrichRecord [c1Meta]) ++ added
      ∧ ∀ r ∈ added, r.source = "ARG" ∧ r.currentSizeGB = none ∧ r.currentSku = none :=
  c1_enrichment_precedes_backfill [] [c1Row] [c1Meta]

/-- Claim C1 counterexample: with no activity-log events, one recently
created inventory row and a metadata row with the matching key, the
claim predicts the backfilled record is enriched with the metadata
current SKU and size of the metadata row; the code produces exactly the bare ARG
record, with no CurrentSku and no CurrentSizeGB, even though its key
does match the metadata lookup. -/
theorem c1_counterexample :
    runAggregation [] true [c1Row] [c1Meta] = [mkArgRecord c1Row]
    ∧ (mkArgRecord c1Row).currentSku = none
    ∧ (mkArgRecord c1Row).currentSizeGB = none
    ∧ lookupMeta [c1Meta] (rowKey (mkArgRecord c1Row)) = some c1Meta
    ∧ c1Meta.sku = "PremiumV2_LRS" := by
  refine ⟨by decide, rfl, rfl, by decide, rfl⟩

/-- Claim C2 (amended): the backfill adds a Graph-sourced Created record
only if no existing Created record matches on (subscription, resource
group, disk name) under PowerShell -eq, which is a case-insensitive
string comparison (not case-sensitive as claimed); with exactly
matching keys the disk still appears exactly once in the final change
list, with source ActivityLog. -/
theorem c2_backfill_dedup (op : ActivityOp) (d : DiskInventoryRow)
    (meta : List DiskInventoryRow)
    (h1 : (mkActivityDiskRecord op).changeType = "Created")
    (h2 : (mkActivityDiskRecord op).subscriptionId = some d.subscriptionId)
    (h3 : (mkActivityDiskRecord op).resourceGroup = some d.resourceGroup)
    (h4 : (mkActivityDiskRecord op).diskName = some d.name) :
    finalDiskChanges [op] true [d] meta = [enrichRecord meta (mkActivityDiskRecord op)]
    ∧ (enrichRecord meta (mkActivityDiskRecord op)).source = "ActivityLog"
    ∧ (∀ changes dd, changes.any (fun r => backfillMatches r dd) = true →
        integrateArgDisks changes [dd] = changes)
    ∧ (∀ changes dd, changes.any (fun r => backfillMatches r dd) = false →
        integrateArgDisks changes [dd] = changes ++ [mkArgRecord dd]) := by
  have hmatch : backfillMatches (enrichRecord meta (mkActivityDiskRecord op)) d = true := by
    unfold backfillMatches
    rw [enrichRecord_changeType, enrichRecord_subscriptionId, enrichRecord_resourceGroup,
      enrichRecord_diskName, h1, h2, h3, h4]
    simp [psEq_refl, psEqO_some_refl]
  refine ⟨?_, ?_, ?_, ?_⟩
  · show List.insertionSort _ (integrateArgDisks
      [enrichRecord meta (mkActivityDiskRecord op)] [d]) = _
    have hstep : integrateArgDisks [enrichRecord meta (mkActivityDiskRecord op)] [d]
        = [enrichRecord meta (mkActivityDiskRecord op)] := by
      simp [integrateArgDisks, integrateArgDisk, hmatch]
    rw [hstep]
    simp [List.insertionSort]
  · rw [enrichRecord_source]
    rfl
  · intro changes dd h
    simp [integrateArgDisks, integrateArgDisk, h]
  · intro changes dd h
    simp [integrateArgDisks, integrateArgDisk, h]

/-- Witness for claim C2 (amended) at an event and an inventory row with
exactly matching keys. -/
theorem c2_witness :
    finalDiskChanges [c2ExactOp] true [c2ExactRow] []
      = [enrichRecord [] (mkActivityDiskRecord c2ExactOp)]
    ∧ (enrichRecord [] (mkActivityDiskRecord c2ExactOp)).source = "ActivityLog" :=
  ⟨(c2_backfill_dedup c2ExactOp c2ExactRow [] (by decide) (by decide) (by decide)
      (by decide)).1,
   (c2_backfill_dedup c2ExactOp c2ExactRow [] (by decide) (by decide) (by decide)
      (by decide)).2.1⟩

/-- Claim C2 counterexample: an Activity-Log Created record for disk1
and an inventory row for DISK1 (same subscription and resource group,
disk name differing only in casing) do not match case-sensitively, so
the claim as stated requires the Graph record to be added; the case-insensitive
comparison of the code comparison suppresses it and the final list holds the
single ActivityLog record. -/
theorem c2_counterexample :
    runAggregation [c2Op] true [c2ArgRow] [] = [mkActivityDiskRecord c2Op]
    ∧ (mkActivityDiskRecord c2Op).changeType = "Created"
    ∧ specMatchCaseSensitive (mkActivityDiskRecord c2Op) c2ArgRow = false
    ∧ (mkActivityDiskRecord c2Op).source = "ActivityLog" := by
  refine ⟨by decide, rfl, by decide, rfl⟩

theorem addIfAbsent_mem (acc : List String) (x a : String) :
    a ∈ addIfAbsent acc x ↔ a ∈ acc ∨ a = x := by
  unfold addIfAbsent
  by_cases h : x ∈ acc
  · rw [if_pos h]
    constructor
    · exact Or.inl
    · rintro (h1 | rfl)
      · exact h1
      · exact h
  · rw [if_neg h]
    simp

theorem addIfAbsent_nodup (acc : List String) (x : String) (h : acc.Nodup) :
    (addIfAbsent acc x).Nodup := by
  unfold addIfAbsent
  by_cases hx : x ∈ acc
  · rw [if_pos hx]; exact h
  · rw [if_neg hx]
    rw [List.nodup_append]
    refine ⟨h, List.nodup_singleton x, ?_⟩
    intro a ha hax
    rw [List.mem_singleton] at hax
    exact hx (hax ▸ ha)

theorem foldl_addIfAbsent_mem (l : List String) :
    ∀ acc a, (a ∈ l.foldl addIfAbsent acc ↔ a ∈ acc ∨ a ∈ l) := by
  induction l with
  | nil => intro acc a; simp
  | cons x l ih =>
    intro acc a
    rw [List.foldl_cons, ih, addIfAbsent_mem]
    simp [or_assoc]

theorem foldl_addIfAbsent_nodup (l : List String) :
    ∀ acc, acc.Nodup → (l.foldl addIfAbsent acc).Nodup := by
  induction l with
  | nil => intro acc h; simpa
  | cons x l ih => intro acc h; exact ih _ (addIfAbsent_nodup acc x h)

theorem hashSetOf_mem (l : List String) (a : String) : a ∈ hashSetOf l ↔ a ∈ l := by
  unfold hashSetOf
  rw [foldl_addIfAbsent_mem]
  simp

theorem hashSetOf_nodup (l : List String) : (hashSetOf l).Nodup :=
  foldl_addIfAbsent_nodup l [] List.nodup_nil

theorem hashSetOf_toFinset (l : List String) : (hashSetOf l).toFinset = l.toFinset := by
  ext a
  simp [List.mem_toFinset, hashSetOf_mem]

theorem detach_filter_aux (prev curr : VmEvent) (id : String) (q : String → Bool)
    (hq : q id = true) :
    ∀ l : List String, l.Nodup → id ∈ l →
    ((l.filter q).map (mkDetached prev curr)).filter
      (fun r => r.changeType == "Detached" && (r.diskId == id))
      = [mkDetached prev curr id] := by
  have tail_empty : ∀ m : List String, (∀ i ∈ m, i ≠ id) →
      ((m.filter q).map (mkDetached prev curr)).filter
        (fun r => r.changeType == "Detached" && (r.diskId == id)) = [] := by
    intro m hm
    apply List.filter_eq_nil_iff.mpr
    intro r hr
    rw [List.mem_map] at hr
    obtain ⟨i, hi, rfl⟩ := hr
    have hne : i ≠ id := hm i (List.mem_of_mem_filter hi)
    simp [mkDetached, hne]
  intro l
  induction l with
  | nil => intro _ ha; cases ha
  | cons x l ih =>
    intro h ha
    rw [List.nodup_cons] at h
    by_cases hx : x = id
    · subst hx
      rw [List.filter_cons_of_pos hq, List.map_cons,
        List.filter_cons_of_pos (by simp [mkDetached]), tail_empty l (fun i hi => by
          intro hik
          exact h.1 (hik ▸ hi))]
    · have ha2 : id ∈ l := by
        rcases List.mem_cons.mp ha with h1 | h1
        · exact absurd h1.symm hx
        · exact h1
      by_cases hqx : q x
      · rw [List.filter_cons_of_pos hqx, List.map_cons,
          List.filter_cons_of_neg (by simp [mkDetached, hx]), ih h.2 ha2]
      · rw [List.filter_cons_of_neg (by simpa using hqx), ih h.2 ha2]

/-- Claim C4: for every adjacent snapshot pair of one VM key and every
disk id present in the previous snapshot but absent from the current
one, the diff emits exactly one Detached record, timestamped with the
event time of the current snapshot (not the previous one), attributed
to the VM name, subscription and resource group of the previous
snapshot, and carrying the correlation id of the current snapshot (the
exact content of mkDetached). -/
theorem c4_detached_attribution (prev curr : VmEvent) (id : String)
    (h1 : id ∈ prev.diskIds) (h2 : id ∉ curr.diskIds) :
    (diffPair prev curr).filter (fun r => r.changeType == "Detached" && (r.diskId == id))
      = [mkDetached prev curr id]
    ∧ (mkDetached prev curr id).eventTime = curr.time
    ∧ (mkDetached prev curr id).vmName = prev.vm
    ∧ (mkDetached prev curr id).subscriptionId = prev.subId
    ∧ (mkDetached prev curr id).resourceGroup = prev.rg
    ∧ (mkDetached prev curr id).correlationId = curr.corrId := by
  refine ⟨?_, rfl, rfl, rfl, rfl, rfl⟩
  unfold diffPair
  rw [List.filter_append]
  have hattach : (((hashSetOf curr.diskIds).filter
      (fun i => !((hashSetOf prev.diskIds).contains i))).map (mkAttached curr)).filter
      (fun r => r.changeType == "Detached" && (r.diskId == id)) = [] := by
    apply List.filter_eq_nil_iff.mpr
    intro r hr
    rw [List.mem_map] at hr
    obtain ⟨i, _, rfl⟩ := hr
    simp [mkAttached]
  have hq : (!((hashSetOf curr.diskIds).contains id)) = true := by
    have : id ∉ hashSetOf curr.diskIds := fun hmem => h2 ((hashSetOf_mem _ _).mp hmem)
    simpa [List.elem_iff]
  rw [hattach,
    detach_filter_aux prev curr id _ hq (hashSetOf prev.diskIds) (hashSetOf_nodup _)
      ((hashSetOf_mem _ _).mpr h1)]
  rfl

/-- Witness for claim C4 at a concrete snapshot pair where the disk
disappears and every attribution field differs between the two
snapshots. -/
theorem c4_witness :
    (diffPair c4Prev c4Curr).filter
      (fun r => r.changeType == "Detached" && (r.diskId == "diskA"))
      = [mkDetached c4Prev c4Curr "diskA"]
    ∧ (mkDetached c4Prev c4Curr "diskA").eventTime = c4Curr.time
    ∧ (mkDetached c4Prev c4Curr "diskA").vmName = c4Prev.vm
    ∧ (mkDetached c4Prev c4Curr "diskA").subscriptionId = c4Prev.subId
    ∧ (mkDetached c4Prev c4Curr "diskA").resourceGroup = c4Prev.rg
    ∧ (mkDetached c4Prev c4Curr "diskA").correlationId = c4Curr.corrId :=
  c4_detached_attribution c4Prev c4Curr "diskA" (by decide) (by decide)

/-- Claim C6: diffing a VM whose only two snapshots are t1 with disk set
a,b and t2 with disk set b,c yields exactly two records — one Attached
record for c and one Detached record for a, both timestamped at t2 —
and no record for b. -/
theorem c6_two_snapshot_diff (t1 t2 : Nat) (a b c : String)
    (v1 v2 s1 s2 r1 r2 k1 k2 : Option String)
    (ht : t1 < t2) (hab : a ≠ b) (hac : a ≠ c) (hbc : b ≠ c) :
    diffVm [⟨t1, [a, b], v1, s1, r1, k1⟩, ⟨t2, [b, c], v2, s2, r2, k2⟩]
      = [mkAttached ⟨t2, [b, c], v2, s2, r2, k2⟩ c,
         mkDetached ⟨t1, [a, b], v1, s1, r1, k1⟩ ⟨t2, [b, c], v2, s2, r2, k2⟩ a] := by
  have hsort : List.insertionSort (fun x y => x.time ≤ y.time)
      [(⟨t1, [a, b], v1, s1, r1, k1⟩ : VmEvent), ⟨t2, [b, c], v2, s2, r2, k2⟩]
      = [⟨t1, [a, b], v1, s1, r1, k1⟩, ⟨t2, [b, c], v2, s2, r2, k2⟩] := by
    simp [List.insertionSort, List.orderedInsert, Nat.le_of_lt ht]
  unfold diffVm
  rw [hsort]
  show diffPair _ _ ++ diffSorted [_] = _
  rw [show diffSorted [(⟨t2, [b, c], v2, s2, r2, k2⟩ : VmEvent)] = [] from rfl]
  unfold diffPair
  have hforma : hashSetOf [a, b] = [a, b] := by
    simp [hashSetOf, addIfAbsent, Ne.symm hab]
  have hformc : hashSetOf [b, c] = [b, c] := by
    simp [hashSetOf, addIfAbsent, Ne.symm hbc]
  simp only [hforma, hformc]
  have h1 : ([a, b] : List String).contains b = true := by simp
  have h2 : ([a, b] : List String).contains c = false := by
    simp [Ne.symm hac, Ne.symm hbc]
  have h3 : ([b, c] : List String).contains a = false := by
    simp [hab, hac]
  have h4 : ([b, c] : List String).contains b = true := by simp
  simp [h1, h2, h3, h4, hab, hac, Ne.symm hac, Ne.symm hbc]

/-- Witness for claim C6 at concrete times and disk ids. -/
theorem c6_witness :
    diffVm [⟨1, ["A", "B"], some "vm", some "s", some "r", some "k1"⟩,
            ⟨2, ["B", "C"], some "vm", some "s", some "r", some "k2"⟩]
      = [mkAttached ⟨2, ["B", "C"], some "vm", some "s", some "r", some "k2"⟩ "C",
         mkDetached ⟨1, ["A", "B"], some "vm", some "s", some "r", some "k1"⟩
           ⟨2, ["B", "C"], some "vm", some "s", some "r", some "k2"⟩ "A"] :=
  c6_two_snapshot_diff 1 2 "A" "B" "C" (some "vm") (some "vm") (some "s") (some "s")
    (some "r") (some "r") (some "k1") (some "k2") (by decide) (by decide) (by decide)
    (by decide)

theorem matchLit_append (lit : List Char) : ∀ s : List Char, matchLit lit (lit ++ s) = some s := by
  induction lit with
  | nil => intro s; rfl
  | cons c cs ih => intro s; simp [matchLit, ih]

theorem matchLit_head_ne (c d : Char) (cs xs : List Char) (h : d ≠ c) :
    matchLit (c :: cs) (d :: xs) = none := by
  simp [matchLit, h]

theorem takeNonQuote_all (l : List Char) (t : List Char) (h : ∀ c ∈ l, c ≠ '"') :
    takeNonQuote (l ++ '"' :: t) = (l, '"' :: t) := by
  induction l with
  | nil => simp [takeNonQuote]
  | cons c l ih =>
    have hc : c ≠ '"' := h c (List.mem_cons_self c l)
    have ih2 := ih (fun x hx => h x (List.mem_cons_of_mem c hx))
    simp [takeNonQuote, hc, ih2]

theorem matchIdTail_head_ne (c : Char) (t : List Char) (h : c ≠ '"') :
    matchIdTail (c :: t) = none := by
  unfold matchIdTail
  rw [show litId = '"' :: ['i', 'd', '"'] from rfl, matchLit_head_ne _ _ _ _ h]

theorem matchIdTail_main (id : String) (t : List Char) (h1 : id.data ≠ [])
    (h2 : ∀ c ∈ id.data, c ≠ '"') :
    matchIdTail (innerChars id ++ rbrace :: t) = some (id, rbrace :: t) := by
  obtain ⟨d⟩ := id
  have hd1 : (String.mk d).data = d := rfl
  rw [hd1] at h1 h2
  have hshape : innerChars (String.mk d) ++ rbrace :: t
      = litId ++ ':' :: '"' :: (d ++ '"' :: rbrace :: t) := by
    simp [innerChars, hd1]
  rw [hshape]
  unfold matchIdTail
  rw [matchLit_append]
  have hw1 : dropWs (':' :: '"' :: (d ++ '"' :: rbrace :: t))
      = ':' :: '"' :: (d ++ '"' :: rbrace :: t) := by simp [dropWs, isWs]
  have hw2 : dropWs ('"' :: (d ++ '"' :: rbrace :: t))
      = '"' :: (d ++ '"' :: rbrace :: t) := by simp [dropWs, isWs]
  have htq : takeNonQuote (d ++ '"' :: rbrace :: t) = (d, '"' :: rbrace :: t) :=
    takeNonQuote_all d (rbrace :: t) h2
  have hne : d.isEmpty = false := by
    cases hd : d with
    | nil => exact absurd hd h1
    | cons x xs => rfl
  simp [hw1, hw2, htq, hne]

theorem matchIdTail_quote_fail (l : List Char) (t : List Char) (h : ∀ c ∈ l, c ≠ '"') :
    matchIdTail ('"' :: l ++ '"' :: rbrace :: t) = none := by
  match l with
  | [] => simp [matchIdTail, litId, matchLit]
  | a :: l2 =>
    by_cases ha : a = 'i'
    · subst ha
      match l2 with
      | [] => simp [matchIdTail, litId, matchLit]
      | b :: l3 =>
        by_cases hb : b = 'd'
        · subst hb
          match l3 with
          | [] =>
            unfold matchIdTail
            rw [show ('"' :: ['i', 'd'] ++ '"' :: rbrace :: t) = litId ++ rbrace :: t
              from rfl, matchLit_append]
            have hw : dropWs (rbrace :: t) = rbrace :: t := by
              simp [dropWs, rbrace, isWs]
            simp [hw]
            simp [rbrace]
          | c2 :: l4 =>
            have hc2 : c2 ≠ '"' := h c2 (by simp)
            unfold matchIdTail
            rw [show ('"' :: ('i' :: 'd' :: c2 :: l4) ++ '"' :: rbrace :: t)
              = '"' :: 'i' :: 'd' :: (c2 :: (l4 ++ '"' :: rbrace :: t)) from by simp]
            rw [show litId = '"' :: 'i' :: 'd' :: ['"'] from rfl]
            simp [matchLit, hc2]
        · have : matchLit litId ('"' :: ('i' :: b :: l3) ++ '"' :: rbrace :: t) = none := by
            rw [show ('"' :: ('i' :: b :: l3) ++ '"' :: rbrace :: t)
              = '"' :: 'i' :: (b :: (l3 ++ '"' :: rbrace :: t)) from by simp]
            rw [show litId = '"' :: 'i' :: 'd' :: ['"'] from rfl]
            simp [matchLit, hb]
          unfold matchIdTail
          rw [this]
    · have : matchLit litId ('"' :: (a :: l2) ++ '"' :: rbrace :: t) = none := by
        rw [show ('"' :: (a :: l2) ++ '"' :: rbrace :: t)
          = '"' :: (a :: (l2 ++ '"' :: rbrace :: t)) from by simp]
        rw [show litId = '"' :: 'i' :: ['d', '"'] from rfl]
        simp [matchLit, ha]
      unfold matchIdTail
      rw [this]

theorem matchInner_cons (c : Char) (rest : List Char) :
    matchInner (c :: rest) = if c = rbrace then matchIdTail (c :: rest)
      else match matchInner rest with
        | some r => some r
        | none => matchIdTail (c :: rest) := rfl

theorem matchInner_skip (l : List Char) (tail : List Char)
    (h : ∀ c ∈ l, c ≠ '"' ∧ c ≠ rbrace) (htail : matchInner tail = none) :
    matchInner (l ++ tail) = none := by
  induction l with
  | nil => simpa
  | cons c l ih =>
    have hc := h c (List.mem_cons_self c l)
    have ih2 := ih (fun x hx => h x (List.mem_cons_of_mem c hx))
    rw [List.cons_append, matchInner_cons, if_neg hc.2, ih2,
      matchIdTail_head_ne c (l ++ tail) hc.1]

theorem matchInner_quote_rbrace (t : List Char) : matchInner ('"' :: rbrace :: t) = none := by
  rw [matchInner_cons, if_neg (by decide), matchInner_cons, if_pos rfl,
    matchIdTail_head_ne rbrace t (by decide)]
  have hq : matchIdTail ('"' :: rbrace :: t) = none := by
    unfold matchIdTail
    rw [show litId = '"' :: 'i' :: ['d', '"'] from rfl]
    simp [matchLit, show rbrace ≠ 'i' from by decide]
  rw [hq]

theorem matchInner_main (id : String) (t : List Char) (h1 : id.data ≠ [])
    (h2 : ∀ c ∈ id.data, c ≠ '"' ∧ c ≠ rbrace) :
    matchInner (innerChars id ++ rbrace :: t) = some (id, rbrace :: t) := by
  have hq : ∀ c ∈ id.data, c ≠ '"' := fun c hc => (h2 c hc).1
  have h6 : matchInner (id.data ++ '"' :: rbrace :: t) = none :=
    matchInner_skip id.data ('"' :: rbrace :: t) h2 (matchInner_quote_rbrace t)
  have h5 : matchInner ('"' :: (id.data ++ '"' :: rbrace :: t)) = none := by
    rw [matchInner_cons, if_neg (by decide), h6]
    have := matchIdTail_quote_fail id.data t hq
    simpa using this
  have h4 : matchInner (':' :: '"' :: (id.data ++ '"' :: rbrace :: t)) = none := by
    rw [matchInner_cons, if_neg (by decide), h5,
      matchIdTail_head_ne ':' _ (by decide)]
  have h3 : matchInner ('"' :: ':' :: '"' :: (id.data ++ '"' :: rbrace :: t)) = none := by
    rw [matchInner_cons, if_neg (by decide), h4]
    have hfail : matchIdTail ('"' :: ':' :: '"' :: (id.data ++ '"' :: rbrace :: t)) = none := by
      unfold matchIdTail
      rw [show litId = '"' :: 'i' :: ['d', '"'] from rfl]
      simp [matchLit, show ':' ≠ 'i' from by decide]
    rw [hfail]
  have hb2 : matchInner ('d' :: '"' :: ':' :: '"' :: (id.data ++ '"' :: rbrace :: t))
      = none := by
    rw [matchInner_cons, if_neg (by decide), h3, matchIdTail_head_ne 'd' _ (by decide)]
  have hb1 : matchInner ('i' :: 'd' :: '"' :: ':' :: '"' :: (id.data ++ '"' :: rbrace :: t))
      = none := by
    rw [matchInner_cons, if_neg (by decide), hb2, matchIdTail_head_ne 'i' _ (by decide)]
  have hshape : innerChars id ++ rbrace :: t
      = '"' :: 'i' :: 'd' :: '"' :: ':' :: '"' :: (id.data ++ '"' :: rbrace :: t) := by
    simp [innerChars, litId]
  rw [hshape, matchInner_cons, if_neg (by decide), hb1]
  have := matchIdTail_main id t h1 hq
  rw [hshape] at this
  exact this

theorem matchFull_frag (id : String) (rest : List Char) (h1 : id.data ≠ [])
    (h2 : ∀ c ∈ id.data, c ≠ '"' ∧ c ≠ rbrace) :
    matchFull (fragChars id ++ rest) = some (id, rbrace :: rest) := by
  have hshape : fragChars id ++ rest
      = litMD ++ ':' :: lbrace :: (innerChars id ++ rbrace :: rest) := by
    simp [fragChars]
  rw [hshape]
  unfold matchFull
  rw [matchLit_append]
  have hw1 : dropWs (':' :: lbrace :: (innerChars id ++ rbrace :: rest))
      = ':' :: lbrace :: (innerChars id ++ rbrace :: rest) := by simp [dropWs, isWs]
  have hw2 : dropWs (lbrace :: (innerChars id ++ rbrace :: rest))
      = lbrace :: (innerChars id ++ rbrace :: rest) := by
    simp [dropWs, lbrace, isWs]
  simp [hw1, hw2, matchInner_main id rest h1 h2]

theorem matchFull_rbrace (t : List Char) : matchFull (rbrace :: t) = none := by
  unfold matchFull
  rw [show litMD = '"' :: ("managedDisk".data ++ ['"']) from rfl,
    matchLit_head_ne _ _ _ _ (show rbrace ≠ '"' from by decide)]

theorem scanFuel_nil (f : Nat) : scanCapturesFuel f [] = [] := by
  cases f <;> rfl

theorem scanFuel_succ_some (f : Nat) (s : List Char) (cap : String) (rest2 : List Char)
    (hs : s ≠ []) (hm : matchFull s = some (cap, rest2)) :
    scanCapturesFuel (f + 1) s = cap :: scanCapturesFuel f rest2 := by
  cases s with
  | nil => exact absurd rfl hs
  | cons c rest => simp [scanCapturesFuel, hm]

theorem scanFuel_succ_none (f : Nat) (c : Char) (rest : List Char)
    (hm : matchFull (c :: rest) = none) :
    scanCapturesFuel (f + 1) (c :: rest) = scanCapturesFuel f rest := by
  simp [scanCapturesFuel, hm]

theorem fragChars_length (id : String) : (fragChars id).length = id.data.length + 23 := by
  have hmd : litMD.length = 13 := by decide
  have hid : litId.length = 4 := by decide
  simp [fragChars, innerChars, hmd, hid]
  omega

theorem goodId_spec (id : String) (h : goodId id = true) :
    id.data ≠ [] ∧ ∀ c ∈ id.data, c ≠ '"' ∧ c ≠ rbrace := by
  unfold goodId at h
  rw [Bool.and_eq_true] at h
  obtain ⟨h1, h2⟩ := h
  constructor
  · intro hd
    rw [hd] at h1
    simp at h1
  · intro c hc
    rw [List.all_eq_true] at h2
    have hcc := h2 c hc
    rw [Bool.and_eq_true] at hcc
    exact ⟨by simpa using hcc.1, by simpa using hcc.2⟩

theorem scan_render : ∀ ids : List String, (∀ id ∈ ids, goodId id = true) →
    ∀ fuel : Nat, (renderChars ids).length ≤ fuel →
    scanCapturesFuel fuel (renderChars ids) = ids := by
  intro ids
  induction ids with
  | nil =>
    intro _ fuel _
    exact scanFuel_nil fuel
  | cons id ids ih =>
    intro h fuel hf
    have hgood := goodId_spec id (h id (List.mem_cons_self id ids))
    have hrest : ∀ x ∈ ids, goodId x = true := fun x hx => h x (List.mem_cons_of_mem id hx)
    have hrender : renderChars (id :: ids) = fragChars id ++ renderChars ids := rfl
    have hlen : (renderChars (id :: ids)).length
        = id.data.length + 23 + (renderChars ids).length := by
      rw [hrender, List.length_append, fragChars_length]
    cases fuel with
    | zero =>
      exfalso
      rw [hlen] at hf
      omega
    | succ f1 =>
      have hne : renderChars (id :: ids) ≠ [] := by
        intro he
        have h0 : (renderChars (id :: ids)).length = 0 := by rw [he]; rfl
        rw [hlen] at h0
        omega
      have hm : matchFull (renderChars (id :: ids)) = some (id, rbrace :: renderChars ids) := by
        rw [hrender]
        exact matchFull_frag id (renderChars ids) hgood.1 hgood.2
      rw [scanFuel_succ_some f1 _ id (rbrace :: renderChars ids) hne hm]
      cases f1 with
      | zero =>
        exfalso
        rw [hlen] at hf
        omega
      | succ f2 =>
        rw [scanFuel_succ_none f2 rbrace (renderChars ids) (matchFull_rbrace _)]
        rw [ih hrest f2 (by rw [hlen] at hf; omega)]

/-- Claim C8: a VM payload referencing a list of well-formed disk ids
under managedDisk objects (duplicates allowed) extracts to a duplicate-
free set holding exactly the distinct referenced ids — its size is the
number N of distinct ids — and an absent or empty payload extracts to
the empty set. -/
theorem c8_extract_disk_ids (ids : List String) (h : ∀ id ∈ ids, goodId id = true) :
    (extractDiskIdsFromVmJson (some (renderVmJson ids))).toFinset = ids.toFinset
    ∧ (extractDiskIdsFromVmJson (some (renderVmJson ids))).length = ids.toFinset.card
    ∧ (extractDiskIdsFromVmJson (some (renderVmJson ids))).Nodup
    ∧ extractDiskIdsFromVmJson none = []
    ∧ extractDiskIdsFromVmJson (some "") = [] := by
  have hx : extractDiskIdsFromVmJson (some (renderVmJson ids)) = hashSetOf ids := by
    cases ids with
    | nil => rfl
    | cons id rest =>
      have hqws : isWs '"' = false := by decide
      have hws : isNullOrWhiteSpace (some (renderVmJson (id :: rest))) = false := by
        show (renderVmJson (id :: rest)).data.all isWs = false
        rw [show (renderVmJson (id :: rest)).data = fragChars id ++ renderChars rest
          from rfl]
        simp [fragChars, litMD, hqws]
      unfold extractDiskIdsFromVmJson
      rw [hws]
      show hashSetOf (scanCaptures (renderVmJson (id :: rest)).data) = _
      congr 1
      show scanCapturesFuel (renderChars (id :: rest)).length (renderChars (id :: rest))
        = id :: rest
      exact scan_render (id :: rest) h _ (le_refl _)
  refine ⟨?_, ?_, ?_, rfl, rfl⟩
  · rw [hx, hashSetOf_toFinset]
  · rw [hx, ← hashSetOf_toFinset ids, List.toFinset_card_of_nodup (hashSetOf_nodup ids)]
  · rw [hx]
    exact hashSetOf_nodup ids

/-- Witness for claim C8 at a payload referencing three managed-disk ids
with one duplicate: the extracted set has exactly the two distinct
ids. -/
theorem c8_witness :
    (extractDiskIdsFromVmJson (some (renderVmJson ["idA", "idB", "idA"]))).toFinset
      = (["idA", "idB", "idA"] : List String).toFinset
    ∧ (extractDiskIdsFromVmJson (some (renderVmJson ["idA", "idB", "idA"]))).length
      = (["idA", "idB", "idA"] : List String).toFinset.card
    ∧ (extractDiskIdsFromVmJson (some (renderVmJson ["idA", "idB", "idA"]))).Nodup
    ∧ extractDiskIdsFromVmJson none = []
    ∧ extractDiskIdsFromVmJson (some "") = [] :=
  c8_extract_disk_ids ["idA", "idB", "idA"] (by decide)

end DiskAudit
